import Mathlib

/-!
Verification of the PostgreSQL seeding scripts of the ic-events repository.
Variant A is src/db/psql_init.py and variant B is src/server/psql_init.py.
Database tables are modelled as lists of rows, SQL commands as functions on
those lists, and raising Python code as Except values.
-/

namespace ICEvents

/-- Number of rows of a table equal to a given row value. -/
def countVal {α : Type} [DecidableEq α] (t : List α) (v : α) : Nat :=
  t.countP (fun x => decide (x = v))

theorem countVal_pos {α : Type} [DecidableEq α] {t : List α} {v : α} :
    0 < countVal t v ↔ v ∈ t := by
  simp [countVal, List.countP_pos_iff]

theorem countVal_eq_zero {α : Type} [DecidableEq α] {t : List α} {v : α} :
    countVal t v = 0 ↔ v ∉ t := by
  constructor
  · intro h hv
    have := countVal_pos.mpr hv
    omega
  · intro h
    by_contra hne
    exact h (countVal_pos.mp (Nat.pos_of_ne_zero hne))

theorem countVal_append {α : Type} [DecidableEq α] (t u : List α) (v : α) :
    countVal (t ++ u) v = countVal t v + countVal u v := by
  simp [countVal, List.countP_append]

theorem countVal_cons {α : Type} [DecidableEq α] (b : α) (l : List α) (v : α) :
    countVal (b :: l) v = countVal l v + (if b = v then 1 else 0) := by
  simp [countVal, List.countP_cons]

theorem countVal_singleton_self {α : Type} [DecidableEq α] (v : α) :
    countVal [v] v = 1 := by
  simp [countVal]

theorem countVal_eq_one_of_nodup {α : Type} [DecidableEq α] {t : List α} {v : α}
    (hn : t.Nodup) (hv : v ∈ t) : countVal t v = 1 := by
  induction t with
  | nil => cases hv
  | cons b l ih =>
    rw [countVal_cons]
    rcases List.mem_cons.mp hv with h | h
    · subst h
      rw [if_pos rfl, countVal_eq_zero.mpr (List.nodup_cons.mp hn).1]
    · rw [ih (List.nodup_cons.mp hn).2 h,
        if_neg (fun e => (List.nodup_cons.mp hn).1 (by rw [e]; exact h))]

/-- Guarded insert semantics shared by cmd_single_field and cmd_double_field of
variant B: the command INSERT INTO t SELECT params WHERE NOT EXISTS
(SELECT ... WHERE fields = params) appends the candidate row exactly when no
existing row already equals it. -/
def condInsert {α : Type} [DecidableEq α] (t : List α) (v : α) : List α :=
  if t.any (fun x => decide (x = v)) then t else t ++ [v]

theorem condInsert_any_iff {α : Type} [DecidableEq α] {t : List α} {v : α} :
    (t.any (fun x => decide (x = v)) = true) ↔ v ∈ t := by
  simp

theorem condInsert_count_self {α : Type} [DecidableEq α] (t : List α) (v : α)
    (h : countVal t v ≤ 1) : countVal (condInsert t v) v = 1 := by
  by_cases hv : v ∈ t
  · rw [condInsert, if_pos (condInsert_any_iff.mpr hv)]
    have h1 : 0 < countVal t v := countVal_pos.mpr hv
    omega
  · rw [condInsert, if_neg (fun hh => hv (condInsert_any_iff.mp hh)),
      countVal_append, countVal_eq_zero.mpr hv, countVal_singleton_self]

theorem condInsert_count_other {α : Type} [DecidableEq α] (t : List α) (v w : α)
    (h : w ≠ v) : countVal (condInsert t v) w = countVal t w := by
  rw [condInsert]
  split
  · rfl
  · rw [countVal_append, countVal_cons]
    rw [if_neg (fun e => h e.symm)]
    simp [countVal]

theorem condInsert_preserve {α : Type} [DecidableEq α] (t : List α) (v : α)
    (h : ∀ x, countVal t x ≤ 1) : ∀ x, countVal (condInsert t v) x ≤ 1 := by
  intro x
  by_cases hx : x = v
  · subst hx
    rw [condInsert_count_self t x (h x)]
  · rw [condInsert_count_other t v x hx]
    exact h x

/-- Execution of the SQL produced by cmd_single_field of variant B, as issued
by psql_city, psql_state, psql_postal_code, psql_latitude, psql_longitude and
psql_times with parameter pair (x, x): conditional insert of one value. -/
def cmd_single_field_insert (t : List String) (v : String) : List String :=
  condInsert t v

/-- Execution of the SQL produced by cmd_double_field of variant B, as issued
by psql_country with parameters (abbr, name, abbr, name): conditional insert
of a two-field row. -/
def cmd_double_field_insert (t : List (String × String)) (v : String × String) :
    List (String × String) :=
  condInsert t v

/-- C1: issuing the conditional-insert command of variant B twice with the same
value against a table satisfying the uniqueness invariant leaves exactly one
row with that value, and the insert preserves the invariant, so a uniqueness
violation cannot occur under this strategy. -/
theorem C1_conditional_insert_idempotent
    (t : List (String × String)) (v : String × String)
    (u : List String) (w : String)
    (ht : ∀ x, countVal t x ≤ 1) (hu : ∀ x, countVal u x ≤ 1) :
    countVal (cmd_double_field_insert (cmd_double_field_insert t v) v) v = 1 ∧
    countVal (cmd_single_field_insert (cmd_single_field_insert u w) w) w = 1 ∧
    (∀ x, countVal (cmd_double_field_insert t v) x ≤ 1) ∧
    (∀ x, countVal (cmd_single_field_insert u w) x ≤ 1) := by
  refine ⟨?_, ?_, condInsert_preserve t v ht, condInsert_preserve u w hu⟩
  · exact condInsert_count_self _ v
      (le_of_eq (condInsert_count_self t v (ht v)))
  · exact condInsert_count_self _ w
      (le_of_eq (condInsert_count_self u w (hu w)))

/-- Witness for C1: the country row (US, United States) inserted twice into an
empty country table leaves exactly one such row. -/
theorem C1_witness :
    countVal (cmd_double_field_insert (cmd_double_field_insert
      ([] : List (String × String)) ("US", "United States"))
      ("US", "United States")) ("US", "United States") = 1 :=
  (C1_conditional_insert_idempotent [] ("US", "United States") [] "US"
    (fun x => by simp [countVal]) (fun x => by simp [countVal])).1

/-- load_times of both variants: datetime(1,1,1) plus timedelta(minutes=5)
times x for x in range(288), keeping the time of day. A time of day is
modelled as minutes after midnight, so entry x is 5 * x (no value reaches a
full day, hence no date rollover occurs in the source either). -/
def load_times : List Nat := (List.range 288).map (fun x => 5 * x)

/-- C5: load_times deterministically produces exactly 288 values, the first
being 00:00:00, consecutive values differing by exactly 5 minutes, strictly
increasing with no duplicates, and all within one day (no 24:00 entry). -/
theorem C5_load_times_spec :
    load_times.length = 288 ∧
    load_times.head? = some 0 ∧
    List.Chain' (fun a b => b = a + 5) load_times ∧
    List.Chain' (fun a b => a < b) load_times ∧
    load_times.Nodup ∧
    load_times.all (fun x => decide (x < 1440)) = true := by
  refine ⟨by simp [load_times], ?_, ?_, ?_, ?_, ?_⟩
  · rw [load_times, List.head?_map, show (288 : Nat) = 287 + 1 from rfl,
      List.range_succ_eq_map]
    rfl
  · rw [load_times, List.chain'_map, show (288 : Nat) = 287 + 1 from rfl,
      List.chain'_range_succ]
    intro m _
    omega
  · rw [load_times, List.chain'_map, show (288 : Nat) = 287 + 1 from rfl,
      List.chain'_range_succ]
    intro m _
    omega
  · exact (List.nodup_range 288).map (fun a b h => by omega)
  · rw [List.all_eq_true]
    intro x hx
    rw [load_times, List.mem_map] at hx
    obtain ⟨i, hi, hx⟩ := hx
    rw [List.mem_range] at hi
    subst hx
    simp only [decide_eq_true_eq]
    omega

/-- Result of running the body of one decorated method: the lines it prints
and either a returned value or a raised error. -/
structure StepRun (α : Type) where
  trace : List String
  result : Except String α

/-- Semantics of the status() decorator of both variants: print the Execute
line, run the body inside try, and print the Complete line in the finally
block; the return value of the body is discarded and a raised error
propagates after the finally block runs. -/
def statusWrapped {α : Type} (name : String) (body : StepRun α) : StepRun Unit :=
  { trace := ("\nExecute: " ++ name) :: body.trace ++ ["Complete: " ++ name ++ "\n"],
    result := match body.result with
      | Except.ok _ => Except.ok ()
      | Except.error e => Except.error e }

theorem getLast?_cons_append_singleton {α : Type} (x y : α) (l : List α) :
    (x :: l ++ [y]).getLast? = some y := by
  rw [show x :: l ++ [y] = (x :: l) ++ [y] from rfl]
  exact List.getLast?_concat _

/-- C9: for every method wrapped by status(), a message naming the step is
printed before the body runs and a completion message after it finishes, and
the completion message appears whether the body returns normally or raises. -/
theorem C9_status_brackets {α : Type} (name : String) (body : StepRun α) :
    (statusWrapped name body).trace =
      ("\nExecute: " ++ name) :: body.trace ++ ["Complete: " ++ name ++ "\n"] ∧
    (statusWrapped name body).trace.head? = some ("\nExecute: " ++ name) ∧
    (statusWrapped name body).trace.getLast? = some ("Complete: " ++ name ++ "\n") ∧
    (∀ (a : α) (tr : List String),
      (statusWrapped name { trace := tr, result := Except.ok a }).trace.getLast? =
        some ("Complete: " ++ name ++ "\n")) ∧
    (∀ (e : String) (tr : List String),
      (statusWrapped name ({ trace := tr, result := Except.error e } :
        StepRun α)).trace.getLast? = some ("Complete: " ++ name ++ "\n")) := by
  refine ⟨rfl, rfl, getLast?_cons_append_singleton _ _ _, ?_, ?_⟩
  · intro a tr
    exact getLast?_cons_append_singleton _ _ _
  · intro e tr
    exact getLast?_cons_append_singleton _ _ _

/-- C10: every call to a status()-decorated method returns None: the wrapper
discards the return value of the body, returning unit on success for every
possible returned value, and re-raising the error on failure. -/
theorem C10_status_discards_result {α : Type} (name : String) (body : StepRun α) :
    (statusWrapped name body).result =
      (match body.result with
       | Except.ok _ => Except.ok ()
       | Except.error e => Except.error e) ∧
    (∀ (a : α) (tr : List String),
      (statusWrapped name { trace := tr, result := Except.ok a }).result =
        Except.ok ()) := by
  exact ⟨rfl, fun a tr => rfl⟩

/-- Step methods invoked, in order, by initiate_db of variant A before the
single conn.commit() call. -/
def initSteps_db : List String :=
  ["load_countries", "load_locations", "load_times", "get_user", "get_password",
   "psql_connection", "psql_tables", "psql_city", "psql_country",
   "psql_latitude", "psql_longitude", "psql_postal_code", "psql_state",
   "psql_times", "psql_address"]

/-- Step methods invoked, in order, by initiate_db of variant B before the
single conn.commit() call (no psql_address step exists in variant B). -/
def initSteps_server : List String :=
  ["load_countries", "load_locations", "load_times", "get_user", "get_password",
   "psql_connection", "psql_tables", "psql_city", "psql_country",
   "psql_latitude", "psql_longitude", "psql_postal_code", "psql_state",
   "psql_times"]

/-- Control flow of initiate_db: run the remaining steps in order; a step that
raises aborts the run immediately with its error and no commit; once every
step has returned, the single conn.commit() is issued. The result is the
number of commits issued and the outcome seen by the caller. -/
def runInitiateDb (outcome : String → Except String Unit) :
    List String → Nat × Except String Unit
  | [] => (1, Except.ok ())
  | s :: rest =>
    match outcome s with
    | Except.error e => (0, Except.error e)
    | Except.ok _ => runInitiateDb outcome rest

/-- Error raised by the first failing step of the sequence, if any. -/
def firstError (outcome : String → Except String Unit) (steps : List String) :
    Option String :=
  steps.findSome? (fun s =>
    match outcome s with
    | Except.error e => some e
    | Except.ok _ => none)

theorem runInitiateDb_eq (outcome : String → Except String Unit) :
    ∀ steps : List String,
      runInitiateDb outcome steps =
        match firstError outcome steps with
        | none => (1, Except.ok ())
        | some e => (0, Except.error e) := by
  intro steps
  induction steps with
  | nil => rfl
  | cons s rest ih =>
    rw [runInitiateDb, firstError, List.findSome?_cons]
    rcases houtcome : outcome s with e | u
    · rfl
    · rw [ih, firstError]

/-- C2: initiate_db of either variant issues at most one commit, the run
result is fully determined by the first failing step - the commit is issued
exactly when no step raises, and a raising step propagates its error to the
caller unmodified with no commit and no retry. -/
theorem C2_initiate_db_commit (outcome : String → Except String Unit) :
    ((runInitiateDb outcome initSteps_db).1 ≤ 1 ∧
     (runInitiateDb outcome initSteps_server).1 ≤ 1) ∧
    (runInitiateDb outcome initSteps_db =
      match firstError outcome initSteps_db with
      | none => (1, Except.ok ())
      | some e => (0, Except.error e)) ∧
    (runInitiateDb outcome initSteps_server =
      match firstError outcome initSteps_server with
      | none => (1, Except.ok ())
      | some e => (0, Except.error e)) ∧
    ((runInitiateDb outcome initSteps_db).1 = 1 ↔
      firstError outcome initSteps_db = none) ∧
    ((runInitiateDb outcome initSteps_server).1 = 1 ↔
      firstError outcome initSteps_server = none) := by
  have hdb := runInitiateDb_eq outcome initSteps_db
  have hsv := runInitiateDb_eq outcome initSteps_server
  refine ⟨⟨?_, ?_⟩, hdb, hsv, ?_, ?_⟩
  · rw [hdb]
    rcases firstError outcome initSteps_db with _ | e <;> simp
  · rw [hsv]
    rcases firstError outcome initSteps_server with _ | e <;> simp
  · rw [hdb]
    rcases firstError outcome initSteps_db with _ | e <;> simp
  · rw [hsv]
    rcases firstError outcome initSteps_server with _ | e <;> simp

/-- Tables dropped and recreated by psql_tables of variant A: the ten serial
lookup tables in dictionary order, then the composite tables address and
events. -/
def tablesCreated_db : List String :=
  ["city", "country", "event", "event_date", "event_time", "latitude",
   "longitude", "postal_code", "state", "url", "address", "events"]

/-- Tables dropped and recreated by psql_tables of variant B: the ten serial
lookup tables in dictionary order, then the composite table event. -/
def tablesCreated_server : List String :=
  ["city", "country", "dates", "events", "latitude", "longitude",
   "postal_code", "state", "times", "url", "event"]

/-- Table into which each populate step of variant A inserts rows (psql_times
inserts into event_time; psql_address into the composite address table). -/
def stepInsertTable_db : String → Option String := fun s =>
  if s = "psql_city" then some "city"
  else if s = "psql_country" then some "country"
  else if s = "psql_latitude" then some "latitude"
  else if s = "psql_longitude" then some "longitude"
  else if s = "psql_postal_code" then some "postal_code"
  else if s = "psql_state" then some "state"
  else if s = "psql_times" then some "event_time"
  else if s = "psql_address" then some "address"
  else none

/-- Table into which each populate step of variant B inserts rows (psql_times
inserts into times; no step inserts into dates, events, url or event). -/
def stepInsertTable_server : String → Option String := fun s =>
  if s = "psql_city" then some "city"
  else if s = "psql_country" then some "country"
  else if s = "psql_latitude" then some "latitude"
  else if s = "psql_longitude" then some "longitude"
  else if s = "psql_postal_code" then some "postal_code"
  else if s = "psql_state" then some "state"
  else if s = "psql_times" then some "times"
  else none

/-- Tables that receive inserts during a variant A run of initiate_db. -/
def tablesPopulated_db : List String :=
  initSteps_db.filterMap stepInsertTable_db

/-- Tables that receive inserts during a variant B run of initiate_db. -/
def tablesPopulated_server : List String :=
  initSteps_server.filterMap stepInsertTable_server

/-- Counterexample to C6: in both variants some tables created by psql_tables
are populated by no step of initiate_db - url in particular is rebuilt but
never receives a row. -/
theorem C6_counterexample :
    ¬ (∀ x ∈ tablesCreated_server, x ∈ tablesPopulated_server) ∧
    ¬ (∀ x ∈ tablesCreated_db, x ∈ tablesPopulated_db) ∧
    "url" ∈ tablesCreated_server ∧ "url" ∉ tablesPopulated_server ∧
    "url" ∈ tablesCreated_db ∧ "url" ∉ tablesPopulated_db := by
  decide

/-- C6 amended: after a successful run every populated table is among the
created ones, but the created tables left unpopulated are exactly event,
event_date, url and events in variant A, and dates, events, url and the
composite event table in variant B. -/
theorem C6_tables_populated_subset :
    (∀ x ∈ tablesPopulated_db, x ∈ tablesCreated_db) ∧
    (∀ x ∈ tablesPopulated_server, x ∈ tablesCreated_server) ∧
    tablesCreated_db.filter (fun x => decide (x ∉ tablesPopulated_db)) =
      ["event", "event_date", "url", "events"] ∧
    tablesCreated_server.filter (fun x => decide (x ∉ tablesPopulated_server)) =
      ["dates", "events", "url", "event"] := by
  decide

/-- Filesystem state around one source CSV: whether the plain (decoded) csv
file and the compressed csv.gz artifact are present. -/
structure FileState where
  csvPresent : Bool
  gzPresent : Bool
deriving DecidableEq, Repr

/-- Filesystem actions the readers can perform on the source files. -/
inductive FsAction where
  | writeCsv
  | writeGz
  | removeCsv
deriving DecidableEq, Repr

/-- unzip of both variants: when csv_zipped is true, read the csv.gz artifact
and write the decoded csv file; otherwise do nothing. -/
def unzip (zipped : Bool) (fs : FileState) : FileState × List FsAction :=
  if zipped then ({ fs with csvPresent := true }, [FsAction.writeCsv])
  else (fs, [])

/-- zip_file of variant A (identical body to the zip method of variant B):
gzip the csv file into csv.gz only when csv_zipped is false, then os.remove
the csv file unconditionally. -/
def zip_file (zipped : Bool) (fs : FileState) : FileState × List FsAction :=
  let step1 : FileState × List FsAction :=
    if !zipped then ({ fs with gzPresent := true }, [FsAction.writeGz])
    else (fs, [])
  ({ step1.1 with csvPresent := false }, step1.2 ++ [FsAction.removeCsv])

/-- File behaviour of load_countries and load_locations of variant A: unzip,
parse with np.genfromtxt (which may raise), then call zip_file - but only
when parsing returned, because a raised parse error propagates before the
zip_file call is reached. Result: final state, actions performed, success. -/
def loadSource_db (zipped parseOk : Bool) (fs : FileState) :
    FileState × List FsAction × Bool :=
  let u := unzip zipped fs
  if parseOk then
    let z := zip_file zipped u.1
    (z.1, u.2 ++ z.2, true)
  else (u.1, u.2, false)

/-- File behaviour of load_countries and load_locations of variant B: unzip
then parse; the zip method is never called on any path, so no removal and no
re-compression ever happens. -/
def loadSource_server (zipped parseOk : Bool) (fs : FileState) :
    FileState × List FsAction × Bool :=
  let u := unzip zipped fs
  (u.1, u.2, parseOk)

/-- Counterexample to C7: starting from a compressed source only, the decoded
csv written by unzip is left behind when variant A parsing raises, and even
by a successful variant B run - cleanup is not guaranteed on every exit
path. -/
theorem C7_counterexample :
    (loadSource_db true false { csvPresent := false, gzPresent := true
      }).1.csvPresent = true ∧
    (loadSource_server true true { csvPresent := false, gzPresent := true
      }).1.csvPresent = true := by
  decide

/-- C7 amended: in a default compressed run, variant A removes the decoded
csv only on the success path and leaves it behind when parsing raises, while
variant B leaves it behind on every path. -/
theorem C7_decoded_file_cleanup (fs : FileState) :
    (loadSource_db true true fs).1.csvPresent = false ∧
    (loadSource_db true false fs).1.csvPresent = true ∧
    (loadSource_server true true fs).1.csvPresent = true ∧
    (loadSource_server true false fs).1.csvPresent = true := by
  rcases fs with ⟨c, g⟩
  cases c <;> cases g <;> exact ⟨rfl, rfl, rfl, rfl⟩

/-- Counterexample to C8: in a default run (csv_zipped true) a successful
variant A read performs no gzip compression at all - zip_file only deletes
the decoded copy, so no compressed artifact is restored from it. -/
theorem C8_counterexample :
    FsAction.writeGz ∉
      (loadSource_db true true { csvPresent := false, gzPresent := true }).2.1 ∧
    (loadSource_db true true { csvPresent := false, gzPresent := true }).2.1 =
      [FsAction.writeCsv, FsAction.removeCsv] := by
  decide

/-- C8 amended: in a default run variant A leaves the original compressed
artifact untouched and merely deletes the decoded copy, re-compressing only
when csv_zipped is false, while variant B leaves the source decompressed. -/
theorem C8_zip_behaviour (fs : FileState) :
    FsAction.writeGz ∉ (loadSource_db true true fs).2.1 ∧
    (loadSource_db true true fs).1.gzPresent = fs.gzPresent ∧
    (loadSource_db true true fs).1.csvPresent = false ∧
    FsAction.writeGz ∈ (loadSource_db false true fs).2.1 ∧
    (loadSource_server true true fs).1.csvPresent = true ∧
    FsAction.writeGz ∉ (loadSource_server true true fs).2.1 := by
  rcases fs with ⟨c, g⟩
  cases c <;> cases g <;> exact ⟨by decide, rfl, rfl, by decide, rfl, by decide⟩

/-- One row of us_postal_codes.csv as parsed by load_locations of variant A:
all five selected columns are fixed-width strings (dtype U5/U30/U2/U9/U9). -/
structure LocationRecord where
  postal_code : String
  city : String
  state : String
  latitude : String
  longitude : String
deriving DecidableEq, Repr

/-- np.unique as used by load_locations: the distinct values of a column,
one copy each. np.unique additionally returns them sorted; the order only
fixes which surrogate id each distinct value receives and no property proved
here depends on it, so the distinct values are kept in list order. -/
def uniqueVals : List String → List String
  | [] => []
  | v :: vs =>
    if (uniqueVals vs).any (fun x => decide (x = v)) then uniqueVals vs
    else v :: uniqueVals vs

theorem mem_uniqueVals {l : List String} {v : String} :
    v ∈ uniqueVals l ↔ v ∈ l := by
  induction l with
  | nil => simp [uniqueVals]
  | cons w ws ih =>
    rw [uniqueVals]
    by_cases h : (uniqueVals ws).any (fun x => decide (x = w)) = true
    · rw [if_pos h, List.mem_cons]
      constructor
      · intro hv
        exact Or.inr (ih.mp hv)
      · intro hv
        rcases hv with hv | hv
        · rw [hv]
          exact condInsert_any_iff.mp h
        · exact ih.mpr hv
    · rw [if_neg h]
      simp [List.mem_cons, ih]

theorem nodup_uniqueVals (l : List String) : (uniqueVals l).Nodup := by
  induction l with
  | nil => exact List.nodup_nil
  | cons w ws ih =>
    rw [uniqueVals]
    by_cases h : (uniqueVals ws).any (fun x => decide (x = w)) = true
    · rw [if_pos h]
      exact ih
    · rw [if_neg h]
      exact List.nodup_cons.mpr ⟨fun hmem => h (condInsert_any_iff.mpr hmem), ih⟩

/-- Rows of a SERIAL-keyed lookup table populated from a value list starting
at id n: PostgreSQL assigns ids n, n + 1, ... in insertion order. -/
def serialTableFrom (n : Nat) : List String → List (Nat × String)
  | [] => []
  | v :: vs => (n, v) :: serialTableFrom (n + 1) vs

/-- The lookup table a psql_ populate step of variant A builds from a value
list: SERIAL ids starting at 1. -/
def serialTable (vals : List String) : List (Nat × String) :=
  serialTableFrom 1 vals

theorem serialTableFrom_snd (n : Nat) (vs : List String) :
    (serialTableFrom n vs).map Prod.snd = vs := by
  induction vs generalizing n with
  | nil => rfl
  | cons v vs ih => simp [serialTableFrom, ih]

theorem serialTableFrom_id_ge {n i : Nat} {v : String} {vs : List String}
    (h : (i, v) ∈ serialTableFrom n vs) : n ≤ i := by
  induction vs generalizing n with
  | nil => cases h
  | cons w vs ih =>
    rcases List.mem_cons.mp h with h | h
    · have : i = n := congrArg Prod.fst h
      omega
    · have := ih h
      omega

theorem serialTableFrom_id_fun {n i : Nat} {v w : String} {vs : List String}
    (h1 : (i, v) ∈ serialTableFrom n vs) (h2 : (i, w) ∈ serialTableFrom n vs) :
    v = w := by
  induction vs generalizing n with
  | nil => cases h1
  | cons u vs ih =>
    rcases List.mem_cons.mp h1 with ha | ha <;>
      rcases List.mem_cons.mp h2 with hb | hb
    · rw [show v = u from congrArg Prod.snd ha,
        show w = u from congrArg Prod.snd hb]
    · have hin : i = n := congrArg Prod.fst ha
      have := serialTableFrom_id_ge hb
      omega
    · have hin : i = n := congrArg Prod.fst hb
      have := serialTableFrom_id_ge ha
      omega
    · exact ih ha hb

/-- Effect of idx_sub of psql_address on one cell of the addresses array: the
loop over the rows (id, value) returned by table_select overwrites the cell
with id whenever the original source value of the record equals value. The
cell starts unassigned. -/
def idx_sub_cell (table : List (Nat × String)) (src : String) : Option Nat :=
  table.foldl (fun acc row => if src = row.2 then some row.1 else acc) none

theorem idx_sub_fold_sound (table : List (Nat × String)) (src : String) :
    ∀ (acc : Option Nat) (i : Nat),
      table.foldl (fun acc row => if src = row.2 then some row.1 else acc) acc =
        some i →
      acc = some i ∨ (i, src) ∈ table := by
  induction table with
  | nil =>
    intro acc i h
    exact Or.inl h
  | cons row rest ih =>
    intro acc i h
    obtain ⟨rid, rval⟩ := row
    rw [List.foldl_cons] at h
    rcases ih _ i h with h' | h'
    · by_cases hs : src = rval
      · right
        simp only [hs, if_pos rfl] at h'
        have : rid = i := Option.some.inj h'
        rw [List.mem_cons]
        left
        rw [← this, hs]
      · rw [if_neg hs] at h'
        exact Or.inl h'
    · right
      exact List.mem_cons_of_mem _ h'

theorem idx_sub_fold_some (table : List (Nat × String)) (src : String) :
    ∀ acc : Option Nat,
      (src ∈ table.map Prod.snd ∨ ∃ j, acc = some j) →
      ∃ i, table.foldl
        (fun acc row => if src = row.2 then some row.1 else acc) acc = some i := by
  induction table with
  | nil =>
    intro acc h
    rcases h with h | ⟨j, hj⟩
    · simp at h
    · exact ⟨j, by rw [List.foldl_nil, hj]⟩
  | cons row rest ih =>
    intro acc h
    obtain ⟨rid, rval⟩ := row
    rw [List.foldl_cons]
    by_cases hs : src = rval
    · exact ih _ (Or.inr ⟨rid, by rw [if_pos hs]⟩)
    · apply ih
      rcases h with h | hj
      · left
        rw [List.map_cons, List.mem_cons] at h
        rcases h with h | h
        · exact absurd h hs
        · exact h
      · right
        rw [if_neg hs]
        exact hj

/-- One column of the loaded location data. -/
def colOf (data : List LocationRecord) (f : LocationRecord → String) :
    List String :=
  data.map f

/-- The lookup table variant A builds for one address field: psql_city and
friends insert np.unique of the column into a SERIAL table. -/
def fieldTable (col : List String) : List (Nat × String) :=
  serialTable (uniqueVals col)

/-- Resolved surrogate id for one field of one record: the outcome of the
idx_sub substitution against that field's lookup table. -/
def resolveField (data : List LocationRecord) (f : LocationRecord → String)
    (r : LocationRecord) : Option Nat :=
  idx_sub_cell (fieldTable (colOf data f)) (f r)

theorem resolveField_spec (data : List LocationRecord)
    (f : LocationRecord → String) (r : LocationRecord) (h : r ∈ data) :
    ∃ i, resolveField data f r = some i ∧
      (i, f r) ∈ fieldTable (colOf data f) := by
  have hcol : f r ∈ colOf data f := List.mem_map_of_mem f h
  have hmem : f r ∈ (fieldTable (colOf data f)).map Prod.snd := by
    rw [fieldTable, serialTable, serialTableFrom_snd]
    exact mem_uniqueVals.mpr hcol
  obtain ⟨i, hi⟩ :=
    idx_sub_fold_some (fieldTable (colOf data f)) (f r) none (Or.inl hmem)
  refine ⟨i, hi, ?_⟩
  rcases idx_sub_fold_sound (fieldTable (colOf data f)) (f r) none i hi with
    h' | h'
  · cases h'
  · exact h'

theorem resolveField_inj (data : List LocationRecord)
    (f : LocationRecord → String) {r r' : LocationRecord}
    (hr : r ∈ data) (hr' : r' ∈ data) :
    resolveField data f r = resolveField data f r' ↔ f r = f r' := by
  constructor
  · intro h
    obtain ⟨i, hi, hmem⟩ := resolveField_spec data f r hr
    obtain ⟨i', hi', hmem'⟩ := resolveField_spec data f r' hr'
    rw [hi, hi'] at h
    have : i = i' := Option.some.inj h
    rw [this] at hmem
    exact serialTableFrom_id_fun hmem hmem'
  · intro h
    rw [resolveField, resolveField, h]

/-- One row of the addresses array inserted into the address table: the five
surrogate-id cells, in the field order of psql_address. -/
structure ResolvedAddress where
  postal_code : Option Nat
  city : Option Nat
  state : Option Nat
  latitude : Option Nat
  longitude : Option Nat
deriving DecidableEq, Repr

/-- The address row psql_address produces for one location record, after
idx_sub has substituted all five fields. -/
def resolveRecord (data : List LocationRecord) (r : LocationRecord) :
    ResolvedAddress :=
  { postal_code := resolveField data (fun x => x.postal_code) r,
    city := resolveField data (fun x => x.city) r,
    state := resolveField data (fun x => x.state) r,
    latitude := resolveField data (fun x => x.latitude) r,
    longitude := resolveField data (fun x => x.longitude) r }

/-- The five source field values of a record, in the order named by C3. -/
def key5 (r : LocationRecord) :
    String × String × String × String × String :=
  (r.city, r.state, r.postal_code, r.latitude, r.longitude)

/-- The UNIQUE (city, state, postal_code) key the address table declares. -/
def addrKey (a : ResolvedAddress) : Option Nat × Option Nat × Option Nat :=
  (a.city, a.state, a.postal_code)

/-- The plain INSERT psql_address issues per row: the UNIQUE constraint on
(city, state, postal_code) makes the engine raise when a row with the same
key already exists. -/
def addressInsert (t : List ResolvedAddress) (a : ResolvedAddress) :
    Except String (List ResolvedAddress) :=
  if t.any (fun b => decide (addrKey b = addrKey a)) then
    Except.error "unique violation"
  else Except.ok (t ++ [a])

/-- psql_address of variant A: build one resolved row per location record via
idx_sub, then insert the rows into the address table one by one. -/
def psql_address (data : List LocationRecord) :
    Except String (List ResolvedAddress) :=
  (data.map (resolveRecord data)).foldlM addressInsert []

theorem insertAll_ok :
    ∀ (rows acc t : List ResolvedAddress),
      List.Pairwise (fun a b => addrKey a ≠ addrKey b) acc →
      rows.foldlM addressInsert acc = Except.ok t →
      t = acc ++ rows ∧ List.Pairwise (fun a b => addrKey a ≠ addrKey b) t := by
  intro rows
  induction rows with
  | nil =>
    intro acc t hacc h
    rw [List.foldlM_nil] at h
    have : acc = t := Except.ok.inj h
    subst this
    exact ⟨by simp, hacc⟩
  | cons a rest ih =>
    intro acc t hacc h
    rw [List.foldlM_cons] at h
    by_cases hany :
        acc.any (fun b => decide (addrKey b = addrKey a)) = true
    · rw [show addressInsert acc a = Except.error "unique violation" from by
        rw [addressInsert, if_pos hany]] at h
      cases h
    · rw [show addressInsert acc a = Except.ok (acc ++ [a]) from by
        rw [addressInsert, if_neg hany]] at h
      have hstep :
          List.Pairwise (fun a b => addrKey a ≠ addrKey b) (acc ++ [a]) := by
        rw [List.pairwise_append]
        refine ⟨hacc, List.pairwise_singleton _ _, ?_⟩
        intro b hb c hc
        rw [List.mem_singleton] at hc
        subst hc
        intro hbc
        apply hany
        rw [List.any_eq_true]
        exact ⟨b, hb, by simp [hbc]⟩
      obtain ⟨ht, hp⟩ := ih (acc ++ [a]) t hstep h
      refine ⟨?_, hp⟩
      rw [ht, List.append_assoc]
      rfl

theorem pairwise_addrKey_ne_nodup {t : List ResolvedAddress}
    (h : List.Pairwise (fun a b => addrKey a ≠ addrKey b) t) : t.Nodup :=
  h.imp (fun hne heq => hne (by rw [heq]))

/-- Property C3 asserts of the address table contents relative to the loaded
location records. -/
def addressTableCorrect (data : List LocationRecord)
    (t : List ResolvedAddress) : Prop :=
  (∀ r ∈ data, countVal t (resolveRecord data r) = 1) ∧
  (∀ a ∈ t, ∃ r, r ∈ data ∧ a = resolveRecord data r) ∧
  (∀ r ∈ data, ∀ r' ∈ data,
    (resolveRecord data r = resolveRecord data r' ↔ key5 r = key5 r'))

theorem resolveRecord_eq_iff (data : List LocationRecord)
    {r r' : LocationRecord} (hr : r ∈ data) (hr' : r' ∈ data) :
    resolveRecord data r = resolveRecord data r' ↔ key5 r = key5 r' := by
  constructor
  · intro h
    have hpc := congrArg ResolvedAddress.postal_code h
    have hci := congrArg ResolvedAddress.city h
    have hst := congrArg ResolvedAddress.state h
    have hla := congrArg ResolvedAddress.latitude h
    have hlo := congrArg ResolvedAddress.longitude h
    rw [key5, key5, Prod.mk.injEq, Prod.mk.injEq, Prod.mk.injEq, Prod.mk.injEq]
    exact ⟨(resolveField_inj data _ hr hr').mp hci,
      (resolveField_inj data _ hr hr').mp hst,
      (resolveField_inj data _ hr hr').mp hpc,
      (resolveField_inj data _ hr hr').mp hla,
      (resolveField_inj data _ hr hr').mp hlo⟩
  · intro h
    have : r = r' := by
      cases r
      cases r'
      simp only [key5, Prod.mk.injEq] at h
      simp_all
    rw [this]

/-- C3: after a successful run of psql_address of variant A, the address
table holds exactly one row per location record's resolved tuple, every row
comes from some record, and two records resolve to the same row exactly when
their five source field values coincide - so the table has exactly one row
per distinct (city, state, postal_code, latitude, longitude) combination
observed in the data, none missing and none duplicated. -/
theorem C3_address_rows (data : List LocationRecord)
    (t : List ResolvedAddress) (h : psql_address data = Except.ok t) :
    addressTableCorrect data t := by
  obtain ⟨ht, hp⟩ :=
    insertAll_ok (data.map (resolveRecord data)) [] t List.Pairwise.nil h
  rw [List.nil_append] at ht
  have hnodup : t.Nodup := pairwise_addrKey_ne_nodup hp
  refine ⟨?_, ?_, ?_⟩
  · intro r hr
    exact countVal_eq_one_of_nodup hnodup
      (by rw [ht]; exact List.mem_map_of_mem _ hr)
  · intro a ha
    rw [ht, List.mem_map] at ha
    obtain ⟨r, hr, hra⟩ := ha
    exact ⟨r, hr, hra.symm⟩
  · intro r hr r' hr'
    exact resolveRecord_eq_iff data hr hr'

/-- C4 property: each foreign-key id of the address row produced for a
record points to a lookup row whose stored value equals the record's
original source field value. -/
def addressRoundTrip (data : List LocationRecord) (r : LocationRecord) : Prop :=
  (∃ i, (resolveRecord data r).city = some i ∧
    (i, r.city) ∈ fieldTable (colOf data (fun x => x.city))) ∧
  (∃ i, (resolveRecord data r).state = some i ∧
    (i, r.state) ∈ fieldTable (colOf data (fun x => x.state))) ∧
  (∃ i, (resolveRecord data r).postal_code = some i ∧
    (i, r.postal_code) ∈ fieldTable (colOf data (fun x => x.postal_code))) ∧
  (∃ i, (resolveRecord data r).latitude = some i ∧
    (i, r.latitude) ∈ fieldTable (colOf data (fun x => x.latitude))) ∧
  (∃ i, (resolveRecord data r).longitude = some i ∧
    (i, r.longitude) ∈ fieldTable (colOf data (fun x => x.longitude)))

/-- C4: for every loaded location record, the address row psql_address
produces for it carries foreign-key ids that point to lookup rows whose
stored values equal the record's original city, state, postal_code, latitude
and longitude values - resolving and then reverse-looking-up each foreign
key recovers the original source value. -/
theorem C4_address_foreign_keys (data : List LocationRecord)
    (r : LocationRecord) (h : r ∈ data) : addressRoundTrip data r :=
  ⟨resolveField_spec data (fun x => x.city) r h,
   resolveField_spec data (fun x => x.state) r h,
   resolveField_spec data (fun x => x.postal_code) r h,
   resolveField_spec data (fun x => x.latitude) r h,
   resolveField_spec data (fun x => x.longitude) r h⟩

/-- Two concrete location records from the spec scenario. -/
def witnessData : List LocationRecord :=
  [{ postal_code := "90210", city := "Beverly Hills", state := "CA",
     latitude := "34.0901", longitude := "-118.4065" },
   { postal_code := "10001", city := "New York", state := "NY",
     latitude := "40.7484", longitude := "-73.9967" }]

/-- Address table produced for the two scenario records. -/
def witnessTable : List ResolvedAddress :=
  [{ postal_code := some 1, city := some 1, state := some 1,
     latitude := some 1, longitude := some 1 },
   { postal_code := some 2, city := some 2, state := some 2,
     latitude := some 2, longitude := some 2 }]

/-- Witness for C3: on the two scenario records psql_address succeeds and the
resulting table satisfies the per-combination uniqueness property. -/
theorem C3_witness :
    psql_address witnessData = Except.ok witnessTable ∧
    addressTableCorrect witnessData witnessTable :=
  ⟨by rfl, C3_address_rows witnessData witnessTable (by rfl)⟩

/-- Witness for C4: the first scenario record is among the loaded data and
its address row round-trips on all five fields. -/
theorem C4_witness :
    ({ postal_code := "90210", city := "Beverly Hills", state := "CA",
       latitude := "34.0901", longitude := "-118.4065" } :
      LocationRecord) ∈ witnessData ∧
    addressRoundTrip witnessData
      { postal_code := "90210", city := "Beverly Hills", state := "CA",
        latitude := "34.0901", longitude := "-118.4065" } :=
  ⟨by decide, C4_address_foreign_keys witnessData _ (by decide)⟩

end ICEvents
